import Mathlib

/-!
Verification of the sliding-window rate limiter of daily-notes-api
(`internal/middleware/middleware.go`).

The limiter is embedded shallowly:

* Go `time.Time` / `time.Duration` are modelled as `Int` (a point on a single
  global clock line, resp. a signed duration on it); each call to
  `isAllowed` is taken to execute atomically at a single instant `now`
  (this is exactly the serialization that the per-visitor mutex provides
  for the critical section of the Go code).
* The Go map `map[string]*Visitor` is modelled as an association list with
  unique keys; `lookupKey` is map read, `insertKey` is map write.
* Go slice code that can panic (indexing `visitor.requests[0]` on an empty
  slice) is modelled by returning `none` from `isAllowed`.
* The check-then-act race on lazy visitor creation (the Go code releases
  the registry read lock before taking the write lock and never re-checks
  existence) is modelled separately, by splitting `isAllowed` into its
  lock-delimited phases over a heap of visitor records (`RaceState`), so
  that interleavings of two concurrent callers can be executed explicitly.
-/

namespace DailyNotes

/-- `Visitor` (middleware.go lines 67-72): per-identity state, an ordered
sequence of request timestamps plus a last-seen timestamp.  The per-visitor
mutex is not part of the data; it is modelled by atomicity of a check. -/
structure Visitor where
  requests : List Int
  lastSeen : Int
deriving DecidableEq

/-- `RateLimiter` (middleware.go lines 58-65): the visitor registry plus the
immutable configuration `rate` (requests per window), `window` and `cleanup`
(durations).  The registry map is modelled as an association list. -/
structure RateLimiter where
  visitors : List (String × Visitor)
  rate : Int
  window : Int
  cleanup : Int
deriving DecidableEq

/-- Read of a Go map entry (comma-ok form), e.g. `rl.visitors[ip]`. -/
def lookupKey {β : Type} : List (String × β) → String → Option β
  | [], _ => none
  | (k, v) :: rest, ip => if k = ip then some v else lookupKey rest ip

/-- Write of a Go map entry, e.g. `rl.visitors[ip] = visitor`: replaces the
binding for the key if present, otherwise appends a fresh binding. -/
def insertKey {β : Type} : List (String × β) → String → β → List (String × β)
  | [], ip, v => [(ip, v)]
  | (k, v') :: rest, ip, v =>
    if k = ip then (ip, v) :: rest else (k, v') :: insertKey rest ip v

/-- `NewRateLimiter` (middleware.go lines 78-90): builds the limiter with an
empty registry.  Faithful to the source, it performs no validation whatsoever
of its arguments (in particular `rate <= 0` is accepted); the background
cleanup goroutine it starts is not needed by any claim and is not modelled. -/
def NewRateLimiter (rate window cleanup : Int) : RateLimiter :=
  { visitors := [], rate := rate, window := window, cleanup := cleanup }

/-- Lines 135-143 of `isAllowed`: keep exactly the timestamps strictly after
`cutoff = now - window` (`reqTime.After(cutoff)`), preserving order. -/
def prune (window now : Int) (reqs : List Int) : List Int :=
  reqs.filter fun t => now - window < t

/-- The triple returned by `isAllowed`: admission decision, remaining quota,
and duration until quota resets. -/
structure CheckResult where
  allowed : Bool
  remaining : Int
  resetIn : Int
deriving DecidableEq

/-- Lines 116-127 of `isAllowed`: the visitor record the critical section
operates on — the registry entry if present, else a fresh record with an
empty history (which is also what gets inserted before the critical
section; the net registry effect is the single final write). -/
def getVisitor (rl : RateLimiter) (ip : String) (now : Int) : Visitor :=
  match lookupKey rl.visitors ip with
  | some v => v
  | none => { requests := [], lastSeen := now }

/-- `isAllowed` (middleware.go lines 114-160), as the atomic sequential
check: prune the history to the trailing window, set `lastSeen = now`,
deny with `resetIn = oldest + window - now` when the pruned length has
reached `rate`, otherwise append `now` and admit.  Returns `none` exactly
where the Go code panics: the deny branch reads `visitor.requests[0]`,
which is out of range when the pruned history is empty (possible only
when `rate <= 0`). -/
def isAllowed (rl : RateLimiter) (ip : String) (now : Int) :
    Option (CheckResult × RateLimiter) :=
  let visitor := getVisitor rl ip now
  let valid := prune rl.window now visitor.requests
  if rl.rate ≤ (valid.length : Int) then
    match valid with
    | [] => none
    | oldest :: _ =>
      let res : CheckResult :=
        { allowed := false, remaining := rl.rate - (valid.length : Int),
          resetIn := oldest + rl.window - now }
      let v' : Visitor := { requests := valid, lastSeen := now }
      some (res, { rl with visitors := insertKey rl.visitors ip v' })
  else
    let newRequests := valid ++ [now]
    let res : CheckResult :=
      { allowed := true, remaining := rl.rate - (newRequests.length : Int),
        resetIn := 0 }
    let v' : Visitor := { requests := newRequests, lastSeen := now }
    some (res, { rl with visitors := insertKey rl.visitors ip v' })

/-- Runs a sequence of checks `(identity, time)` from a given limiter state,
threading the state and collecting the returned triples; `none` if any
check panics. -/
def runChecks (rl : RateLimiter) : List (String × Int) → Option (RateLimiter × List CheckResult)
  | [] => some (rl, [])
  | (ip, t) :: rest =>
    match isAllowed rl ip t with
    | none => none
    | some (res, rl') =>
      match runChecks rl' rest with
      | none => none
      | some (rlF, results) => some (rlF, res :: results)

/-- C2: with `rate=3`, `window=10`, for one identity checked sequentially,
three checks at `t=0` are all admitted (remaining 2, 1, 0), a fourth check
at `t=5` is denied with `resetIn = 5` (exactly the time until the `t=0`
requests age out), and a check at `t=11` is admitted again because the
window has slid past all three `t=0` timestamps. -/
theorem C2_sliding_behavior :
    runChecks (NewRateLimiter 3 10 60)
        [("a", 0), ("a", 0), ("a", 0), ("a", 5), ("a", 11)] =
      some ({ visitors := [("a", { requests := [11], lastSeen := 11 })],
              rate := 3, window := 10, cleanup := 60 },
            [{ allowed := true, remaining := 2, resetIn := 0 },
             { allowed := true, remaining := 1, resetIn := 0 },
             { allowed := true, remaining := 0, resetIn := 0 },
             { allowed := false, remaining := 0, resetIn := 5 },
             { allowed := true, remaining := 2, resetIn := 0 }]) := by
  decide

theorem lookupKey_insertKey_self {β : Type} (m : List (String × β)) (k : String) (v : β) :
    lookupKey (insertKey m k v) k = some v := by
  induction m with
  | nil => simp [insertKey, lookupKey]
  | cons kv rest ih =>
    obtain ⟨k', v'⟩ := kv
    by_cases hk : k' = k
    · simp [insertKey, hk, lookupKey]
    · simp [insertKey, hk, lookupKey, ih]

theorem lookupKey_insertKey_other {β : Type} (m : List (String × β)) (k k' : String) (v : β)
    (hne : k ≠ k') : lookupKey (insertKey m k v) k' = lookupKey m k' := by
  induction m with
  | nil => simp [insertKey, lookupKey, hne]
  | cons kv rest ih =>
    obtain ⟨a, b⟩ := kv
    by_cases ha : a = k
    · subst ha
      simp [insertKey, lookupKey, hne]
    · simp [insertKey, ha, lookupKey, ih]

/-- Inversion principle for a non-panicking check: it is either a denial
(the pruned history is non-empty, its length has reached `rate`, the result
carries `resetIn = oldest + window - now`, and the registry keeps exactly
the pruned history) or an admission (the pruned length is below `rate`, the
result carries `resetIn = 0`, and `now` is appended to the history). -/
theorem isAllowed_inv {rl : RateLimiter} {ip : String} {now : Int} {res : CheckResult}
    {rl' : RateLimiter} (h : isAllowed rl ip now = some (res, rl')) :
    (∃ oldest rest,
      prune rl.window now (getVisitor rl ip now).requests = oldest :: rest ∧
      rl.rate ≤ ((prune rl.window now (getVisitor rl ip now).requests).length : Int) ∧
      res = { allowed := false,
              remaining := rl.rate - ((prune rl.window now (getVisitor rl ip now).requests).length : Int),
              resetIn := oldest + rl.window - now } ∧
      rl' = { rl with visitors := insertKey rl.visitors ip (Visitor.mk (prune rl.window now (getVisitor rl ip now).requests) now) }) ∨
    (((prune rl.window now (getVisitor rl ip now).requests).length : Int) < rl.rate ∧
      res = { allowed := true,
              remaining := rl.rate -
                ((prune rl.window now (getVisitor rl ip now).requests ++ [now]).length : Int),
              resetIn := 0 } ∧
      rl' = { rl with visitors := insertKey rl.visitors ip (Visitor.mk (prune rl.window now (getVisitor rl ip now).requests ++ [now]) now) }) := by
  simp only [isAllowed] at h
  split at h
  · rename_i hge
    split at h
    · exact Option.noConfusion h
    · rename_i oldest rest hval
      injection h with h'
      left
      exact ⟨oldest, rest, hval, hge, (congrArg Prod.fst h').symm, (congrArg Prod.snd h').symm⟩
  · rename_i hlt
    right
    injection h with h'
    push_neg at hlt
    exact ⟨hlt, (congrArg Prod.fst h').symm, (congrArg Prod.snd h').symm⟩

/-- C10: both branches of a check report `remaining` by the same formula
`rate - len(sequence)`, evaluated on the sequence as stored after the check
(pruned, and on admission with the just-admitted timestamp appended): on
every admitted check `remaining` lies in `[0, rate - 1]`, and on every
denied check `remaining` is zero or negative, never positive. -/
theorem C10_remaining_formula (rl : RateLimiter) (ip : String) (now : Int)
    (res : CheckResult) (rl' : RateLimiter)
    (h : isAllowed rl ip now = some (res, rl')) :
    (lookupKey rl'.visitors ip).map
        (fun v => rl.rate - (v.requests.length : Int)) = some res.remaining ∧
    (res.allowed = true → 0 ≤ res.remaining ∧ res.remaining ≤ rl.rate - 1) ∧
    (res.allowed = false → res.remaining ≤ 0) := by
  rcases isAllowed_inv h with ⟨oldest, rest, hval, hge, hres, hrl'⟩ | ⟨hlt, hres, hrl'⟩
  · subst hres hrl'
    refine ⟨?_, ?_, ?_⟩
    · simp [lookupKey_insertKey_self]
    · intro hcontra
      exact Bool.noConfusion hcontra
    · intro _
      simp only
      omega
  · subst hres hrl'
    have hlen : ((prune rl.window now (getVisitor rl ip now).requests ++ [now]).length : Int) =
        ((prune rl.window now (getVisitor rl ip now).requests).length : Int) + 1 := by
      simp
    refine ⟨?_, ?_, ?_⟩
    · simp [lookupKey_insertKey_self]
    · intro _
      simp only
      omega
    · intro hcontra
      exact Bool.noConfusion hcontra

/-- C3: on every denied check the returned `resetIn` is exactly
`oldest + window - now`, where `oldest` is the first (chronologically
oldest) timestamp of the pruned sequence kept for the visitor; on every
admitted check `resetIn` is `0`. -/
theorem C3_reset_duration (rl : RateLimiter) (ip : String) (now : Int)
    (res : CheckResult) (rl' : RateLimiter)
    (h : isAllowed rl ip now = some (res, rl')) :
    (res.allowed = true → res.resetIn = 0) ∧
    (res.allowed = false →
      ∀ v', lookupKey rl'.visitors ip = some v' →
        ∀ oldest, v'.requests.head? = some oldest →
          res.resetIn = oldest + rl.window - now) := by
  rcases isAllowed_inv h with ⟨oldest, rest, hval, hge, hres, hrl'⟩ | ⟨hlt, hres, hrl'⟩
  · subst hres hrl'
    refine ⟨fun hcontra => Bool.noConfusion hcontra, ?_⟩
    intro _ v' hv' o ho
    rw [lookupKey_insertKey_self] at hv'
    injection hv' with hv'
    subst hv'
    simp only [Visitor.mk.injEq] at ho ⊢
    rw [hval] at ho
    simp only [List.head?] at ho
    injection ho with ho
    subst ho
    rfl
  · subst hres hrl'
    exact ⟨fun _ => rfl, fun hcontra => Bool.noConfusion hcontra⟩

/-- C4: a denied check appends no timestamp — the stored sequence after the
denial is exactly the pruned pre-check sequence (the in-window request
count is unchanged by the denial) — while `lastSeen` is set to `now`
unconditionally on every check, admitted or denied. -/
theorem C4_denial_frame (rl : RateLimiter) (ip : String) (now : Int)
    (res : CheckResult) (rl' : RateLimiter)
    (h : isAllowed rl ip now = some (res, rl')) :
    (lookupKey rl'.visitors ip).map Visitor.lastSeen = some now ∧
    (res.allowed = false →
      (lookupKey rl'.visitors ip).map Visitor.requests =
        some (prune rl.window now (getVisitor rl ip now).requests)) := by
  rcases isAllowed_inv h with ⟨oldest, rest, hval, hge, hres, hrl'⟩ | ⟨hlt, hres, hrl'⟩
  · subst hres hrl'
    exact ⟨by simp [lookupKey_insertKey_self], fun _ => by simp [lookupKey_insertKey_self]⟩
  · subst hres hrl'
    exact ⟨by simp [lookupKey_insertKey_self], fun hcontra => Bool.noConfusion hcontra⟩

/-- C5: immediately after any check executed at time `now` (assuming a
positive window and that all previously recorded timestamps are `≤ now`,
i.e. a monotone clock), the visitor's stored sequence contains only
timestamps `t` with `now - window < t ≤ now`: every timestamp
`≤ now - window` has been dropped by that very check, and the sequence
lies within `[now - window, now]`. -/
theorem C5_post_window (rl : RateLimiter) (ip : String) (now : Int)
    (res : CheckResult) (rl' : RateLimiter)
    (hw : 0 < rl.window)
    (hpast : ∀ t ∈ (getVisitor rl ip now).requests, t ≤ now)
    (h : isAllowed rl ip now = some (res, rl')) :
    ∀ v', lookupKey rl'.visitors ip = some v' →
      ∀ t ∈ v'.requests, now - rl.window < t ∧ t ≤ now := by
  rcases isAllowed_inv h with ⟨oldest, rest, hval, hge, hres, hrl'⟩ | ⟨hlt, hres, hrl'⟩
  · subst hres hrl'
    intro v' hv' t ht
    rw [lookupKey_insertKey_self] at hv'
    injection hv' with hv'
    subst hv'
    simp only [prune, List.mem_filter, decide_eq_true_eq] at ht
    exact ⟨ht.2, hpast t ht.1⟩
  · subst hres hrl'
    intro v' hv' t ht
    rw [lookupKey_insertKey_self] at hv'
    injection hv' with hv'
    subst hv'
    simp only [List.mem_append, List.mem_singleton, prune, List.mem_filter,
      decide_eq_true_eq] at ht
    rcases ht with ⟨hmem, hcut⟩ | rfl
    · exact ⟨hcut, hpast t hmem⟩
    · exact ⟨by omega, le_refl _⟩

/-- A single check preserves the registry-wide bound "every stored sequence
has at most `rate` timestamps", and leaves the configuration unchanged. -/
theorem isAllowed_preserves_bound {rl : RateLimiter} {ip : String} {now : Int}
    {res : CheckResult} {rl' : RateLimiter}
    (h : isAllowed rl ip now = some (res, rl'))
    (hinv : ∀ k v, lookupKey rl.visitors k = some v → (v.requests.length : Int) ≤ rl.rate) :
    rl'.rate = rl.rate ∧
    ∀ k v, lookupKey rl'.visitors k = some v → (v.requests.length : Int) ≤ rl'.rate := by
  have hpre : ((prune rl.window now (getVisitor rl ip now).requests).length : Int) ≤
      ((getVisitor rl ip now).requests.length : Int) := by
    exact_mod_cast List.length_filter_le _ _
  rcases isAllowed_inv h with ⟨o1, rest1, hval1, hge1, hres1, hrl1⟩ | ⟨hlt, hres, hrl'⟩
  · subst hrl1
    refine ⟨rfl, ?_⟩
    intro k v hv
    by_cases hk : ip = k
    · subst hk
      rw [lookupKey_insertKey_self] at hv
      injection hv with hv
      subst hv
      cases hg : lookupKey rl.visitors ip with
      | none =>
        have hgv : getVisitor rl ip now = Visitor.mk [] now := by
          simp [getVisitor, hg]
        rw [hgv] at hval1
        simp [prune] at hval1
      | some v0 =>
        have hgv : getVisitor rl ip now = v0 := by
          simp [getVisitor, hg]
        have hv0 := hinv ip v0 hg
        rw [hgv] at hpre
        simp only [hgv]
        omega
    · rw [lookupKey_insertKey_other _ _ _ _ hk] at hv
      exact hinv k v hv
  · subst hrl'
    refine ⟨rfl, ?_⟩
    intro k v hv
    by_cases hk : ip = k
    · subst hk
      rw [lookupKey_insertKey_self] at hv
      injection hv with hv
      subst hv
      have hlen : ((prune rl.window now (getVisitor rl ip now).requests ++ [now]).length : Int) =
          ((prune rl.window now (getVisitor rl ip now).requests).length : Int) + 1 := by
        simp
      simp only
      omega
    · rw [lookupKey_insertKey_other _ _ _ _ hk] at hv
      exact hinv k v hv

/-- Running any sequence of checks preserves the registry-wide bound and
the configuration. -/
theorem runChecks_preserves_bound (checks : List (String × Int)) :
    ∀ rl rl' results, runChecks rl checks = some (rl', results) →
      (∀ k v, lookupKey rl.visitors k = some v → (v.requests.length : Int) ≤ rl.rate) →
      rl'.rate = rl.rate ∧
      ∀ k v, lookupKey rl'.visitors k = some v → (v.requests.length : Int) ≤ rl'.rate := by
  induction checks with
  | nil =>
    intro rl rl' results h hinv
    simp only [runChecks, Option.some.injEq, Prod.mk.injEq] at h
    obtain ⟨rfl, -⟩ := h
    exact ⟨rfl, hinv⟩
  | cons c rest ih =>
    intro rl rl' results h hinv
    obtain ⟨ip, t⟩ := c
    rw [runChecks] at h
    split at h
    · exact Option.noConfusion h
    · rename_i res rl1 hstep
      split at h
      · exact Option.noConfusion h
      · rename_i rlF results' hrest
        simp only [Option.some.injEq, Prod.mk.injEq] at h
        obtain ⟨rfl, -⟩ := h
        obtain ⟨hrate1, hinv1⟩ := isAllowed_preserves_bound hstep hinv
        obtain ⟨hrateF, hinvF⟩ := ih rl1 rlF results' hrest hinv1
        exact ⟨hrateF.trans hrate1, hinvF⟩

/-- C1: for every identity and every sequence of checks run from a freshly
constructed limiter, every stored timestamp sequence has length at most
`rate` at every point (in particular immediately after every successful
admission, which ends such a run), and hence the number of recorded
requests with timestamp inside any trailing window `(t - window, t]` — a
sublist selected by `prune` — never exceeds `rate` at the instant of any
check. -/
theorem C1_quota_invariant (checks : List (String × Int)) (rate window cleanup : Int)
    (rl' : RateLimiter) (results : List CheckResult)
    (h : runChecks (NewRateLimiter rate window cleanup) checks = some (rl', results)) :
    ∀ ip v, lookupKey rl'.visitors ip = some v → ∀ t : Int,
      (v.requests.length : Int) ≤ rate ∧
      ((prune window t v.requests).length : Int) ≤ rate := by
  have base : ∀ k v,
      lookupKey (NewRateLimiter rate window cleanup).visitors k = some v →
      (v.requests.length : Int) ≤ (NewRateLimiter rate window cleanup).rate := by
    intro k v hv
    simp [NewRateLimiter, lookupKey] at hv
  obtain ⟨hrate, hbound⟩ := runChecks_preserves_bound checks _ rl' results h base
  intro ip v hv t
  have hb := hbound ip v hv
  have hr : rl'.rate = rate := hrate
  rw [hr] at hb
  have hp : ((prune window t v.requests).length : Int) ≤ (v.requests.length : Int) := by
    exact_mod_cast List.length_filter_le _ _
  exact ⟨hb, le_trans hp hb⟩

/-- After a check writes a visitor record for `ip`, the next check for `ip`
operates on exactly that record. -/
theorem getVisitor_insertKey (rl : RateLimiter) (ip : String) (v : Visitor) (now : Int) :
    getVisitor { rl with visitors := insertKey rl.visitors ip v } ip now = v := by
  simp [getVisitor, lookupKey_insertKey_self]

/-- C8: for one identity, across two consecutive denied checks at
non-decreasing times `t1 ≤ t2`, performed before the oldest counted
request ages out (`t2 < t1 + resetIn₁`, i.e. before the first reported
reset instant), the reported `resetIn` does not increase; iterating this
gives the non-increasing property for any such sequence of denials. -/
theorem C8_reset_nonincreasing (rl : RateLimiter) (ip : String)
    (t1 t2 rem1 r1 rem2 r2 : Int) (rl1 rl2 : RateLimiter)
    (h1 : isAllowed rl ip t1 = some (CheckResult.mk false rem1 r1, rl1))
    (h2 : isAllowed rl1 ip t2 = some (CheckResult.mk false rem2 r2, rl2))
    (hle : t1 ≤ t2) (hwin : t2 < t1 + r1) : r2 ≤ r1 := by
  rcases isAllowed_inv h1 with ⟨o1, rest1, hval1, hge1, hres1, hrl1⟩ | ⟨_, hres1, _⟩
  · injection hres1 with ha1 hb1 hc1
    subst hrl1
    rcases isAllowed_inv h2 with ⟨o2, rest2, hval2, hge2, hres2, hrl2⟩ | ⟨_, hres2, _⟩
    · injection hres2 with ha2 hb2 hc2
      simp only [getVisitor_insertKey] at hval2 hc2
      rw [hval1] at hval2
      have hkeep : t2 - rl.window < o1 := by omega
      rw [show prune rl.window t2 (o1 :: rest1) = o1 :: prune rl.window t2 rest1 by
        simp [prune, List.filter_cons, hkeep]] at hval2
      injection hval2 with ho2 _
      omega
    · injection hres2 with ha2 hb2 hc2
      exact Bool.noConfusion ha2
  · injection hres1 with ha1 hb1 hc1
    exact Bool.noConfusion ha1

/-- C6: the code does not validate its configuration: `NewRateLimiter`
accepts `rate = 0` and hands back a limiter (no failure of any kind at
construction time), and the very first check for any identity then takes
the deny branch with an empty pruned history and reads
`visitor.requests[0]` out of range — the runtime failure the spec says
construction-time validation must preclude (`none` models that panic). -/
theorem C6_no_construction_validation :
    (NewRateLimiter 0 600 1800).rate = 0 ∧
    isAllowed (NewRateLimiter 0 600 1800) "1.2.3.4" 5 = none := by
  decide

/-- C7 counterexample: the claim quantifies over every limiter state, but
on a state with `rate = 0` (which `NewRateLimiter` happily produces) the
check for the empty-string identity does not return a triple: it hits the
out-of-range read of `visitor.requests[0]` (modelled as `none`). -/
theorem C7_counterexample :
    isAllowed (NewRateLimiter 0 5 5) "" 7 = none := by
  decide

/-- C7 (amended): on every limiter state whose configured `rate` is at
least 1, a check never fails — it returns a `(allowed, remaining,
resetIn)` triple for every identity string, including the empty string,
which is handled as an ordinary (shared) key with no validation. -/
theorem C7_check_total (rl : RateLimiter) (ip : String) (now : Int)
    (hrate : 1 ≤ rl.rate) :
    (isAllowed rl ip now).isSome = true := by
  rw [isAllowed]
  split
  · rename_i hge
    split
    · rename_i hnil
      rw [hnil] at hge
      simp at hge
      omega
    · rfl
  · rfl

/-- Heap-and-registry state for the fine-grained (lock-boundary) model of
`isAllowed`: visitor records live in a store (Go heap; a reference is an
index), and the registry maps an identity to a reference.  This models the
pointer indirection of `map[string]*Visitor` that the atomic sequential
model can elide. -/
structure RaceState where
  store : List Visitor
  table : List (String × Nat)
  rate : Int
  window : Int
deriving DecidableEq

/-- Lines 115-117 of `isAllowed`: the lookup performed under the registry
read lock, which is released before anything else happens. -/
def raceLookup (s : RaceState) (ip : String) : Option Nat :=
  lookupKey s.table ip

/-- Lines 119-127 of `isAllowed` (miss path): allocate a fresh record and
write it into the registry under the write lock.  Faithful to the source,
existence is NOT re-checked under the write lock: the write overwrites
whatever binding the key has by then. -/
def raceCreate (s : RaceState) (ip : String) (now : Int) : Nat × RaceState :=
  (s.store.length,
   { s with store := s.store ++ [Visitor.mk [] now],
            table := insertKey s.table ip s.store.length })

/-- Lines 129-159 of `isAllowed`: the per-visitor critical section, run on
the record the caller holds a reference to (which, after a lost creation
race, need no longer be the record the registry maps the identity to). -/
def raceCritical (s : RaceState) (ref : Nat) (now : Int) :
    Option (CheckResult × RaceState) :=
  match s.store.get? ref with
  | none => none
  | some visitor =>
    let valid := prune s.window now visitor.requests
    if s.rate ≤ (valid.length : Int) then
      match valid with
      | [] => none
      | oldest :: _ =>
        let res : CheckResult :=
          { allowed := false, remaining := s.rate - (valid.length : Int),
            resetIn := oldest + s.window - now }
        some (res, { s with store := s.store.set ref (Visitor.mk valid now) })
    else
      let newRequests := valid ++ [now]
      let res : CheckResult :=
        { allowed := true, remaining := s.rate - (newRequests.length : Int),
          resetIn := 0 }
      some (res, { s with store := s.store.set ref (Visitor.mk newRequests now) })

/-- The interleaving of two concurrent first-time `check(identity)` calls
that the source's locking permits: both callers run the read-locked lookup
(both miss, since the identity is new), then each runs the write-locked
creation (the second write overwrites the first caller's binding), then
each runs its own critical section on the record it itself created — the
two per-visitor mutexes are distinct objects, so neither excludes the
other.  Every step is one of the lock-delimited phases above, in an order
consistent with the mutexes held at each step. -/
def raceTwoFirstTimers (rate window : Int) (ip : String) (now : Int) :
    Option (CheckResult × CheckResult × RaceState) :=
  let s0 : RaceState := { store := [], table := [], rate := rate, window := window }
  match raceLookup s0 ip, raceLookup s0 ip with
  | none, none =>
    let c1 := raceCreate s0 ip now
    let c2 := raceCreate c1.2 ip now
    match raceCritical c2.2 c1.1 now with
    | none => none
    | some (res1, s3) =>
      match raceCritical s3 c2.1 now with
      | none => none
      | some (res2, s4) => some (res1, res2, s4)
  | _, _ => none

/-- C9: with `rate = 1`, the race interleaving of two concurrent
first-time checks for the same identity admits BOTH requests —
`2 > min(2, 1) = 1`, an over-admission — and leaves two visitor records
with diverging histories, of which the registry retains only the later
(reference 1): the first caller's admission is recorded in an orphaned
record.  This refutes the race-freedom the claim states and exhibits the
lost update permitted by the missing existence re-check. -/
theorem C9_first_sighting_race :
    raceTwoFirstTimers 1 600 "1.2.3.4" 0 =
      some (CheckResult.mk true 0 0, CheckResult.mk true 0 0,
        { store := [Visitor.mk [0] 0, Visitor.mk [0] 0],
          table := [("1.2.3.4", 1)], rate := 1, window := 600 }) := by
  decide

/-- Witness for C1: after the run [admit at 0, admit at 1, deny at 2] with
`rate = 2`, the stored sequence `[0, 1]` and its window restriction at
`t = 5` both have length at most 2. -/
theorem C1_quota_invariant_witness :
    ((Visitor.mk [0, 1] 2).requests.length : Int) ≤ 2 ∧
    ((prune 100 5 (Visitor.mk [0, 1] 2).requests).length : Int) ≤ 2 :=
  C1_quota_invariant [("a", 0), ("a", 1), ("a", 2)] 2 100 60
    (RateLimiter.mk [("a", Visitor.mk [0, 1] 2)] 2 100 60)
    [CheckResult.mk true 1 0, CheckResult.mk true 0 0, CheckResult.mk false 0 98]
    (by decide) "a" (Visitor.mk [0, 1] 2) (by decide) 5

/-- Witness for C3: the denial at `now = 2` of a visitor with history `[0]`
under `rate = 1`, `window = 10` reports `resetIn = 8 = 0 + 10 - 2`. -/
theorem C3_reset_duration_witness : (8 : Int) = 0 + 10 - 2 :=
  (C3_reset_duration (RateLimiter.mk [("a", Visitor.mk [0] 0)] 1 10 60) "a" 2
      (CheckResult.mk false 0 8) (RateLimiter.mk [("a", Visitor.mk [0] 2)] 1 10 60)
      (by decide)).2 (by decide) (Visitor.mk [0] 2) (by decide) 0 (by decide)

/-- Witness for C4: the same denial appends nothing (the stored sequence is
exactly the pruned pre-check sequence) and sets `lastSeen` to 2. -/
theorem C4_denial_frame_witness :
    (lookupKey [("a", Visitor.mk [0] 2)] "a").map Visitor.lastSeen = some 2 ∧
    (lookupKey [("a", Visitor.mk [0] 2)] "a").map Visitor.requests =
      some (prune 10 2 (getVisitor (RateLimiter.mk [("a", Visitor.mk [0] 0)] 1 10 60) "a" 2).requests) :=
  ⟨(C4_denial_frame (RateLimiter.mk [("a", Visitor.mk [0] 0)] 1 10 60) "a" 2
      (CheckResult.mk false 0 8) (RateLimiter.mk [("a", Visitor.mk [0] 2)] 1 10 60)
      (by decide)).1,
   (C4_denial_frame (RateLimiter.mk [("a", Visitor.mk [0] 0)] 1 10 60) "a" 2
      (CheckResult.mk false 0 8) (RateLimiter.mk [("a", Visitor.mk [0] 2)] 1 10 60)
      (by decide)).2 (by decide)⟩

/-- Witness for C5: after the admission at `now = 5` with `window = 10`,
the surviving timestamp 0 satisfies `5 - 10 < 0` and `0 ≤ 5`. -/
theorem C5_post_window_witness : (5 : Int) - 10 < 0 ∧ (0 : Int) ≤ 5 :=
  C5_post_window (RateLimiter.mk [("a", Visitor.mk [0] 0)] 3 10 60) "a" 5
    (CheckResult.mk true 1 0) (RateLimiter.mk [("a", Visitor.mk [0, 5] 5)] 3 10 60)
    (by decide) (by decide) (by decide) (Visitor.mk [0, 5] 5) (by decide) 0 (by decide)

/-- Witness for C7 (amended): a freshly constructed limiter with `rate = 1`
returns a triple even for the empty-string identity. -/
theorem C7_check_total_witness :
    (isAllowed (NewRateLimiter 1 10 10) "" 0).isSome = true :=
  C7_check_total (NewRateLimiter 1 10 10) "" 0 (by decide)

/-- Witness for C8: two consecutive denials at times 2 and 3 of the same
visitor (history `[0]`, `rate = 1`, `window = 10`) report `resetIn` 8 then
7, and indeed `7 ≤ 8`. -/
theorem C8_reset_nonincreasing_witness : (7 : Int) ≤ 8 :=
  C8_reset_nonincreasing (RateLimiter.mk [("a", Visitor.mk [0] 0)] 1 10 60) "a"
    2 3 0 8 0 7
    (RateLimiter.mk [("a", Visitor.mk [0] 2)] 1 10 60)
    (RateLimiter.mk [("a", Visitor.mk [0] 3)] 1 10 60)
    (by decide) (by decide) (by decide) (by decide)

/-- Witness for C10: the denial at `now = 2` (history `[0]`, `rate = 1`)
reports `remaining = 1 - 1 = 0`, which matches the stored sequence and is
not positive. -/
theorem C10_remaining_formula_witness :
    (lookupKey [("a", Visitor.mk [0] 2)] "a").map
        (fun v => (1 : Int) - (v.requests.length : Int)) = some 0 ∧
    (0 : Int) ≤ 0 :=
  ⟨(C10_remaining_formula (RateLimiter.mk [("a", Visitor.mk [0] 0)] 1 10 60) "a" 2
      (CheckResult.mk false 0 8) (RateLimiter.mk [("a", Visitor.mk [0] 2)] 1 10 60)
      (by decide)).1,
   (C10_remaining_formula (RateLimiter.mk [("a", Visitor.mk [0] 0)] 1 10 60) "a" 2
      (CheckResult.mk false 0 8) (RateLimiter.mk [("a", Visitor.mk [0] 2)] 1 10 60)
      (by decide)).2.2 (by decide)⟩

end DailyNotes
